import Mathlib

set_option maxRecDepth 20000

/-!
Shallow embedding of `scripts/test_runner.py` (job-directive parsing, log
pattern matching, setup-content filtering and test-result success logic),
together with models of the pieces of the Python standard library the
script relies on (`json.loads`, `int(...)`, `str(...)`, `str.strip`,
`str.split`, substring containment, and the fragment of `re` the script
exercises).  Machine behaviour that the claims do not touch (full Unicode
case folding, float repr, `NaN`/`Infinity` literals, surrogate escapes,
PEP-515 underscores in `int()`) is noted at each definition.
-/

/- ### Python string primitives -/

/-- The whitespace set of Python's `str.strip()` (ASCII part). -/
def isPySpace (c : Char) : Bool :=
  c = ' ' || c = '\t' || c = '\n' || c = '\r' || c = '\x0b' || c = '\x0c'

/-- Python `str.strip()` on a character list. -/
def pyStripC (s : List Char) : List Char :=
  ((s.dropWhile isPySpace).reverse.dropWhile isPySpace).reverse

/-- `listStartsWith pat s` holds when `pat` is a leading segment of `s`. -/
def listStartsWith : List Char → List Char → Bool
  | [], _ => true
  | _ :: _, [] => false
  | p :: ps, c :: cs => p = c && listStartsWith ps cs

/-- Python `pat in s` on strings: contiguous-substring containment. -/
def strContainsC (pat : List Char) : List Char → Bool
  | [] => listStartsWith pat []
  | c :: rest => listStartsWith pat (c :: rest) || strContainsC pat rest

/-- Python `s.split('\n')` on a character list. -/
def splitLinesC : List Char → List (List Char)
  | [] => [[]]
  | c :: rest =>
    if c = '\n' then [] :: splitLinesC rest
    else
      match splitLinesC rest with
      | [] => [[c]]
      | h :: t => (c :: h) :: t

/-- Python `'\n'.join(lines)` on character lists. -/
def joinLinesC : List (List Char) → List Char
  | [] => []
  | [l] => l
  | l :: ls => l ++ '\n' :: joinLinesC ls

/-- Python `str.lower()`; the script only feeds it ASCII, which
`Char.toLower` handles. -/
def pyLowerC (s : List Char) : List Char := s.map Char.toLower

/-- A regex word character (`\w`), ASCII fragment: letters, digits, `_`. -/
def isWordChar (c : Char) : Bool := c.isAlphanum || c = '_'

/- ### JSON values, modelling what Python's `json.loads` produces.

A number is stored exactly as the rational `num / 10 ^ den10`, which
determines Python's `int()` truncation and truthiness of the parsed
numeric literal.  Objects are association lists in source order; duplicate
keys follow `dict` semantics (the last binding wins on lookup). -/

inductive JVal where
  | jnull
  | jbool (b : Bool)
  | jnum (num : Int) (den10 : Nat)
  | jstr (s : String)
  | jarr (xs : List JVal)
  | jobj (fields : List (String × JVal))
deriving Repr

/-- `dict` lookup on a parsed JSON object: the last binding of a duplicated
key is the one `dict` keeps. -/
def jdictGet (fields : List (String × JVal)) (k : String) : Option JVal :=
  (fields.reverse.find? (fun kv => kv.fst = k)).map (·.snd)

/-- `k in d` for a parsed JSON object. -/
def jdictHas (fields : List (String × JVal)) (k : String) : Bool :=
  fields.any (fun kv => kv.fst = k)

/- ### A model of `json.loads` (strict JSON).

Unmodelled corners, none reachable from the claims: the non-standard
`NaN`/`Infinity`/`-Infinity` literals Python accepts, and `\u` escapes
denoting UTF-16 surrogates. -/

/-- JSON insignificant whitespace. -/
def isJsonWs (c : Char) : Bool :=
  c = ' ' || c = '\t' || c = '\n' || c = '\r'

def skipWs (s : List Char) : List Char := s.dropWhile isJsonWs

def hexVal (c : Char) : Option Nat :=
  if c.isDigit then some (c.toNat - '0'.toNat)
  else if 'a' ≤ c ∧ c ≤ 'f' then some (c.toNat - 'a'.toNat + 10)
  else if 'A' ≤ c ∧ c ≤ 'F' then some (c.toNat - 'A'.toNat + 10)
  else none

/-- Decode a JSON string body (opening quote already consumed). -/
def parseStringLitF : Nat → List Char → Option (List Char × List Char)
  | 0, _ => none
  | _, [] => none
  | fuel + 1, c :: rest =>
    if c = '"' then some ([], rest)
    else if c = '\\' then
      match rest with
      | [] => none
      | e :: rest2 =>
        if e = 'u' then
          match rest2 with
          | h1 :: h2 :: h3 :: h4 :: rest3 =>
            match hexVal h1, hexVal h2, hexVal h3, hexVal h4 with
            | some a, some b, some cd, some d =>
              let n := ((a * 16 + b) * 16 + cd) * 16 + d
              if 0xD800 ≤ n ∧ n ≤ 0xDFFF then none
              else
                match parseStringLitF fuel rest3 with
                | some (body, rem) => some (Char.ofNat n :: body, rem)
                | none => none
            | _, _, _, _ => none
          | _ => none
        else
          let esc : Option Char :=
            if e = '"' then some '"'
            else if e = '\\' then some '\\'
            else if e = '/' then some '/'
            else if e = 'b' then some '\x08'
            else if e = 'f' then some '\x0c'
            else if e = 'n' then some '\n'
            else if e = 'r' then some '\r'
            else if e = 't' then some '\t'
            else none
          match esc with
          | none => none
          | some ch =>
            match parseStringLitF fuel rest2 with
            | some (body, rem) => some (ch :: body, rem)
            | none => none
    else if c.toNat < 0x20 then none
    else
      match parseStringLitF fuel rest with
      | some (body, rem) => some (c :: body, rem)
      | none => none

def digitsToNat (ds : List Char) : Nat :=
  ds.foldl (fun acc c => acc * 10 + (c.toNat - '0'.toNat)) 0

/-- Parse a JSON numeric literal into `jnum num den10`. -/
def parseNumber (s : List Char) : Option (JVal × List Char) :=
  let (neg, s1) :=
    match s with
    | '-' :: r => (true, r)
    | _ => (false, s)
  let ipart := s1.takeWhile Char.isDigit
  let s2 := s1.drop ipart.length
  if ipart.isEmpty then none
  else
    let (fdigits, s3) :=
      match s2 with
      | '.' :: r =>
        let fd := r.takeWhile Char.isDigit
        (some fd, r.drop fd.length)
      | _ => (none, s2)
    match fdigits with
    | some [] => none
    | _ =>
      let fd := fdigits.getD []
      let (expOk, e, s4) :=
        match s3 with
        | 'e' :: r | 'E' :: r =>
          let (esign, r1) :=
            match r with
            | '+' :: r2 => ((1 : Int), r2)
            | '-' :: r2 => ((-1 : Int), r2)
            | _ => ((1 : Int), r)
          let ed := r1.takeWhile Char.isDigit
          if ed.isEmpty then (false, (0 : Int), r1)
          else (true, esign * (digitsToNat ed : Int), r1.drop ed.length)
        | _ => (true, (0 : Int), s3)
      if !expOk then none
      else
        let mant : Int := (digitsToNat ipart * 10 ^ fd.length + digitsToNat fd : Nat)
        let signed : Int := if neg then -mant else mant
        let denExp : Int := (fd.length : Int) - e
        if denExp ≤ 0 then some (.jnum (signed * 10 ^ (-denExp).toNat) 0, s4)
        else some (.jnum signed denExp.toNat, s4)

mutual

/-- Parse one JSON value; fuel bounds recursion depth and is chosen large
enough for the whole input at the top level. -/
def parseValF : Nat → List Char → Option (JVal × List Char)
  | 0, _ => none
  | fuel + 1, s =>
    match skipWs s with
    | [] => none
    | c :: rest =>
      if c = '{' then
        match skipWs rest with
        | '}' :: r2 => some (.jobj [], r2)
        | r => match parseMembersF fuel r with
               | some (ms, r2) => some (.jobj ms, r2)
               | none => none
      else if c = '[' then
        match skipWs rest with
        | ']' :: r2 => some (.jarr [], r2)
        | r => match parseElemsF fuel r with
               | some (xs, r2) => some (.jarr xs, r2)
               | none => none
      else if c = '"' then
        match parseStringLitF (rest.length + 1) rest with
        | some (body, r2) => some (.jstr (String.mk body), r2)
        | none => none
      else if c = 't' then
        if listStartsWith ['r', 'u', 'e'] rest then some (.jbool true, rest.drop 3)
        else none
      else if c = 'f' then
        if listStartsWith ['a', 'l', 's', 'e'] rest then some (.jbool false, rest.drop 4)
        else none
      else if c = 'n' then
        if listStartsWith ['u', 'l', 'l'] rest then some (.jnull, rest.drop 3)
        else none
      else if c = '-' || c.isDigit then parseNumber (c :: rest)
      else none

/-- Parse the members of a non-empty JSON object (after `{` and leading
whitespace). -/
def parseMembersF : Nat → List Char → Option (List (String × JVal) × List Char)
  | 0, _ => none
  | fuel + 1, s =>
    match s with
    | '"' :: rest =>
      match parseStringLitF (rest.length + 1) rest with
      | some (key, r1) =>
        match skipWs r1 with
        | ':' :: r2 =>
          match parseValF fuel r2 with
          | some (v, r3) =>
            match skipWs r3 with
            | ',' :: r4 =>
              match parseMembersF fuel (skipWs r4) with
              | some (ms, r5) => some ((String.mk key, v) :: ms, r5)
              | none => none
            | '}' :: r4 => some ([(String.mk key, v)], r4)
            | _ => none
          | none => none
        | _ => none
      | none => none
    | _ => none

/-- Parse the elements of a non-empty JSON array (after `[` and leading
whitespace). -/
def parseElemsF : Nat → List Char → Option (List JVal × List Char)
  | 0, _ => none
  | fuel + 1, s =>
    match parseValF fuel s with
    | some (v, r1) =>
      match skipWs r1 with
      | ',' :: r2 =>
        match parseElemsF fuel r2 with
        | some (xs, r3) => some (v :: xs, r3)
        | none => none
      | ']' :: r2 => some ([v], r2)
      | _ => none
    | none => none

end

/-- Model of `json.loads`: parse one value, then require only whitespace to
remain (`Extra data` otherwise). -/
def jsonLoadsC (s : List Char) : Option JVal :=
  match parseValF (s.length + 8) s with
  | some (v, rest) => if skipWs rest = [] then some v else none
  | none => none

def jsonLoads (s : String) : Option JVal := jsonLoadsC s.data

/- ### Python value operations used by `JobConfig.from_string` -/

/-- Pad a natural number's decimal representation to `width` digits. -/
def natPadded (m : Nat) (width : Nat) : String :=
  let s := toString m
  String.mk (List.replicate (width - s.length) '0') ++ s

/-- Decimal rendering of `num / 10 ^ den10`.  For non-integer values this
approximates Python's float `str` (shortest repr is not modelled; no claim
stringifies a float). -/
def decimalRepr (n : Int) (d : Nat) : String :=
  if d = 0 then toString n
  else
    (if n < 0 then "-" else "") ++ toString (n.natAbs / 10 ^ d) ++ "." ++
      natPadded (n.natAbs % 10 ^ d) d

mutual

/-- Python `str(...)` on a parsed JSON value. -/
def pyStrV : JVal → String
  | .jnull => "None"
  | .jbool b => if b then "True" else "False"
  | .jnum n d => decimalRepr n d
  | .jstr s => s
  | .jarr xs => "[" ++ String.intercalate ", " (pyReprListV xs) ++ "]"
  | .jobj fs => "\x7b" ++ String.intercalate ", " (pyReprFieldsV fs) ++ "\x7d"

/-- Python `repr(...)`, as used for elements inside `str` of a container;
string escaping subtleties are not modelled (no claim exercises them). -/
def pyReprV : JVal → String
  | .jstr s => "\x27" ++ s ++ "\x27"
  | .jnull => "None"
  | .jbool b => if b then "True" else "False"
  | .jnum n d => decimalRepr n d
  | .jarr xs => "[" ++ String.intercalate ", " (pyReprListV xs) ++ "]"
  | .jobj fs => "\x7b" ++ String.intercalate ", " (pyReprFieldsV fs) ++ "\x7d"

def pyReprListV : List JVal → List String
  | [] => []
  | v :: vs => pyReprV v :: pyReprListV vs

def pyReprFieldsV : List (String × JVal) → List String
  | [] => []
  | (k, v) :: fs => ("\x27" ++ k ++ "\x27: " ++ pyReprV v) :: pyReprFieldsV fs

end

/-- Python `int(string)`: strip whitespace, optional sign, decimal digits
(PEP-515 underscores not modelled; no claim uses them). -/
def pyIntStr (s : List Char) : Option Int :=
  let t := pyStripC s
  let (neg, t1) :=
    match t with
    | '-' :: r => (true, r)
    | '+' :: r => (false, r)
    | _ => (false, t)
  if !t1.isEmpty && t1.all Char.isDigit then
    some (if neg then -(digitsToNat t1 : Int) else (digitsToNat t1 : Int))
  else none

/-- Python `int(...)` on a parsed JSON value; floats truncate toward zero. -/
def pyInt : JVal → Except String Int
  | .jbool b => .ok (if b then 1 else 0)
  | .jnum n d => .ok (n.tdiv (10 ^ d))
  | .jstr s =>
    match pyIntStr s.data with
    | some i => .ok i
    | none => .error "ValueError: invalid literal for int() with base 10"
  | .jnull => .error "TypeError: int() argument must be a string or a number, not NoneType"
  | .jarr _ => .error "TypeError: int() argument must be a string or a number, not list"
  | .jobj _ => .error "TypeError: int() argument must be a string or a number, not dict"

/-- Python truthiness (`bool(...)`) of a parsed JSON value. -/
def pyTruthy : JVal → Bool
  | .jnull => false
  | .jbool b => b
  | .jnum n _ => n != 0
  | .jstr s => !s.isEmpty
  | .jarr xs => !xs.isEmpty
  | .jobj fs => !fs.isEmpty

/-- Python `k in v`: key membership for dicts, value equality for lists
(a string compares unequal to any non-string), substring test for strings,
`TypeError` otherwise. -/
def pyInOp (k : String) : JVal → Except String Bool
  | .jobj fs => .ok (jdictHas fs k)
  | .jarr xs => .ok (xs.any (fun x => match x with | .jstr s => s = k | _ => false))
  | .jstr s => .ok (strContainsC k.data s.data)
  | _ => .error "TypeError: argument is not iterable"

/-- Python `v[k]` with a string key. -/
def pySubscript (v : JVal) (k : String) : Except String JVal :=
  match v with
  | .jobj fs =>
    match jdictGet fs k with
    | some x => .ok x
    | none => .error "KeyError"
  | _ => .error "TypeError: indices must be integers"

/-- Python `v.get(k, dflt)`; only dicts have `.get`. -/
def pyDictGet (v : JVal) (k : String) (dflt : JVal) : Except String JVal :=
  match v with
  | .jobj fs => .ok ((jdictGet fs k).getD dflt)
  | _ => .error "AttributeError: object has no attribute get"

/- ### `JobConfig._normalize_config_string` (lines 112-148)

Each `re.sub` of the source is modelled as a left-to-right scan performing
the same non-overlapping replacements that Python's regex engine makes for
that particular pattern. -/

/-- Placeholder text used by the array-protection pass. -/
def placeholderName (n : Nat) : List Char :=
  ("__ARRAY_" ++ toString n ++ "__").data

/-- `re.sub(r'\[[^\[\]]*\]', replace_array, s)`: each bracket-free
`[...]` segment is replaced by a numbered placeholder and recorded. -/
def protectArraysF : Nat → List Char → Nat → (List Char × List (List Char × List Char))
  | 0, s, _ => (s, [])
  | _, [], _ => ([], [])
  | fuel + 1, c :: rest, n =>
    if c = '[' then
      let inner := rest.takeWhile (fun d => d ≠ '[' && d ≠ ']')
      let r2 := rest.drop inner.length
      match r2 with
      | ']' :: r3 =>
        let ph := placeholderName n
        let (out, assoc) := protectArraysF fuel r3 (n + 1)
        (ph ++ out, (ph, '[' :: (inner ++ [']'])) :: assoc)
      | _ =>
        let (out, assoc) := protectArraysF fuel r2 n
        ('[' :: (inner ++ out), assoc)
    else
      let (out, assoc) := protectArraysF fuel rest n
      (c :: out, assoc)

/-- `re.sub(r'(\w+):', r'"\1":', s)`: a maximal word-character run
immediately followed by `:` is wrapped in double quotes. -/
def quoteKeysF : Nat → List Char → List Char
  | 0, s => s
  | _, [] => []
  | fuel + 1, c :: rest =>
    if isWordChar c then
      let run := (c :: rest).takeWhile isWordChar
      let r2 := (c :: rest).drop run.length
      match r2 with
      | ':' :: r3 => '"' :: (run ++ '"' :: ':' :: quoteKeysF fuel r3)
      | _ => run ++ quoteKeysF fuel r2
    else c :: quoteKeysF fuel rest

/-- The ASCII fragment of the regex class `\s`. -/
def isRegexWs (c : Char) : Bool :=
  c = ' ' || c = '\t' || c = '\n' || c = '\r' || c = '\x0b' || c = '\x0c'

/-- The lookahead `(?=\s*[,}])`. -/
def valueLookahead (s : List Char) : Bool :=
  match s.dropWhile isRegexWs with
  | ',' :: _ => true
  | '}' :: _ => true
  | _ => false

/-- `re.sub(r':\s*(yes|no)(?=\s*[,}])', r': "\1"', s)`. -/
def quoteYesNoF : Nat → List Char → List Char
  | 0, s => s
  | _, [] => []
  | fuel + 1, c :: rest =>
    if c = ':' then
      let r1 := rest.dropWhile isRegexWs
      if listStartsWith ['y', 'e', 's'] r1 && valueLookahead (r1.drop 3) then
        ':' :: ' ' :: '"' :: 'y' :: 'e' :: 's' :: '"' :: quoteYesNoF fuel (r1.drop 3)
      else if listStartsWith ['n', 'o'] r1 && valueLookahead (r1.drop 2) then
        ':' :: ' ' :: '"' :: 'n' :: 'o' :: '"' :: quoteYesNoF fuel (r1.drop 2)
      else ':' :: quoteYesNoF fuel rest
    else c :: quoteYesNoF fuel rest

/-- `re.sub(r':\s*(True|False)(?=\s*[,}])', lambda m: lowercase, s)`. -/
def lowerTrueFalseF : Nat → List Char → List Char
  | 0, s => s
  | _, [] => []
  | fuel + 1, c :: rest =>
    if c = ':' then
      let r1 := rest.dropWhile isRegexWs
      if listStartsWith ['T', 'r', 'u', 'e'] r1 && valueLookahead (r1.drop 4) then
        ':' :: ' ' :: 't' :: 'r' :: 'u' :: 'e' :: lowerTrueFalseF fuel (r1.drop 4)
      else if listStartsWith ['F', 'a', 'l', 's', 'e'] r1 && valueLookahead (r1.drop 5) then
        ':' :: ' ' :: 'f' :: 'a' :: 'l' :: 's' :: 'e' :: lowerTrueFalseF fuel (r1.drop 5)
      else ':' :: lowerTrueFalseF fuel rest
    else c :: lowerTrueFalseF fuel rest

/-- Python `s.replace(old, new)` (all non-overlapping occurrences,
left to right); the script only calls it with non-empty `old`. -/
def replaceAllF : Nat → List Char → List Char → List Char → List Char
  | 0, s, _, _ => s
  | _, [], _, _ => []
  | fuel + 1, c :: rest, old, new =>
    if !old.isEmpty && listStartsWith old (c :: rest) then
      new ++ replaceAllF fuel ((c :: rest).drop old.length) old new
    else c :: replaceAllF fuel rest old new

def replaceAll (s old new : List Char) : List Char :=
  replaceAllF (s.length + 1) s old new

/-- `JobConfig._normalize_config_string` (lines 112-148): strip, protect
array segments, quote bare keys, quote bare `yes`/`no` values, lowercase
bare `True`/`False` values, then restore the protected arrays. -/
def normalize_config_string (config_str : String) : String :=
  let s0 := pyStripC config_str.data
  let (s1, arrs) := protectArraysF (s0.length + 1) s0 0
  let s2 := quoteKeysF (s1.length + 1) s1
  let s3 := quoteYesNoF (s2.length + 1) s2
  let s4 := lowerTrueFalseF (s3.length + 1) s3
  String.mk (arrs.foldl (fun acc kv => replaceAll acc kv.fst kv.snd) s4)

/- ### `JobConfig` and `JobConfig.from_string` (lines 57-110) -/

structure ModuleInfo where
  name : String
  version : String
deriving Repr

/-- The job configuration dataclass.  The Python annotation declares
`log_patterns: List[str]`, but `from_string` can in fact store non-string
values there (see the `log` handling below), so the field is modelled with
the honest element type `JVal`. -/
structure JobConfig where
  pass_expected : Bool := true
  timeout : Int := 300
  log_patterns : List JVal := []
  modules : List ModuleInfo := []
deriving Repr

/-- Lines 84-97: the `log` field handling.  A list value is stringified
elementwise; a string value is `json.loads`-parsed and, when that yields a
list, the parsed elements are kept as they are (whether or not they are
strings); otherwise the whole string becomes a one-element pattern list. -/
def logPatternsOf (logConfig : JVal) : List JVal :=
  match logConfig with
  | .jarr xs => xs.map (fun p => .jstr (pyStrV p))
  | .jstr s =>
    match jsonLoads s with
    | some (.jarr xs) => xs
    | some _ => [.jstr s]
    | none => [.jstr s]
  | _ => []

/-- Lines 84-110 of `from_string` after a successful `json.loads`: the
uncaught exceptions Python can raise there (`'log' in config_dict`,
`config_dict['log']`, `config_dict.get`, `int(...)`) surface as
`Except.error`. -/
def configFromDict (d : JVal) : Except String JobConfig :=
  match pyInOp "log" d with
  | .error e => .error e
  | .ok hasLog =>
    let logStep : Except String (List JVal) :=
      if hasLog then
        match pySubscript d "log" with
        | .error e => .error e
        | .ok lc => .ok (logPatternsOf lc)
      else .ok []
    match logStep with
    | .error e => .error e
    | .ok log_patterns =>
      match pyDictGet d "pass" (.jstr "yes") with
      | .error e => .error e
      | .ok passValue =>
        let pass_expected :=
          match passValue with
          | .jstr s => pyLowerC s.data = "yes".data || pyLowerC s.data = "true".data
          | v => pyTruthy v
        match pyDictGet d "timeout" (.jnum 300 0) with
        | .error e => .error e
        | .ok tv =>
          match pyInt tv with
          | .error e => .error e
          | .ok timeout =>
            .ok { pass_expected := pass_expected, timeout := timeout,
                  log_patterns := log_patterns }

/-- `JobConfig.from_string` (lines 70-110): try `json.loads` directly, then
on the normalized string; if both fail return the default config.  An
exception escaping the post-parse field handling is an `Except.error`. -/
def JobConfig.from_string (config_str : String) : Except String JobConfig :=
  match jsonLoads config_str with
  | some d => configFromDict d
  | none =>
    match jsonLoads (normalize_config_string config_str) with
    | some d => configFromDict d
    | none => .ok {}

/- ### `LogMatchResult` (lines 29-55) -/

/-- `match_details` is Python's insertion-ordered `dict`, modelled as an
association list; a duplicated pattern writes the same value twice, so
first-match lookup agrees with `dict` lookup. -/
structure LogMatchResult where
  patterns : List String
  matched_patterns : List String
  unmatched_patterns : List String
  match_details : List (String × List String)
deriving Repr

/-- Lookup in the `match_details` dict. -/
def detailsGet (ds : List (String × List String)) (p : String) : Option (List String) :=
  (ds.find? (fun kv => kv.fst = p)).map (·.snd)

/-- Line 50: `len(self.unmatched_patterns) == 0 and len(self.patterns) > 0`. -/
def LogMatchResult.all_matched (r : LogMatchResult) : Bool :=
  decide (r.unmatched_patterns.length = 0) && decide (0 < r.patterns.length)

/-- Line 55: `len(self.patterns) > 0`. -/
def LogMatchResult.has_patterns (r : LogMatchResult) : Bool :=
  decide (0 < r.patterns.length)

/- ### The fragment of Python `re` that `LogPatternMatcher` reaches.

The script only compiles whole directive patterns.  The model covers
literal patterns with an optional leading `^` anchor (the only regex any
claim exercises); `reCompile` answers `none` both for invalid regexes and
for unmodelled metacharacter patterns, sending `_match_pattern` to its
invalid-regex fallback branch. -/

def isRegexMeta (c : Char) : Bool :=
  c = '.' || c = '^' || c = '$' || c = '*' || c = '+' || c = '?' ||
  c = '{' || c = '}' || c = '[' || c = ']' || c = '(' || c = ')' ||
  c = '|' || c = '\\'

structure PyRegex where
  anchored : Bool
  lit : List Char

/-- `re.compile` on the modelled fragment. -/
def reCompile (p : List Char) : Option PyRegex :=
  match p with
  | '^' :: rest =>
    if rest.all (fun c => !isRegexMeta c) then some ⟨true, rest⟩ else none
  | _ =>
    if p.all (fun c => !isRegexMeta c) then some ⟨false, p⟩ else none

/-- `re.search` on the modelled fragment: without `re.MULTILINE`, `^`
anchors at the start of the string, so an anchored literal searches as a
leading-segment test; an unanchored literal searches as a substring
test. -/
def reSearch (r : PyRegex) (s : List Char) : Bool :=
  if r.anchored then listStartsWith r.lit s else strContainsC r.lit s

/-- `LogPatternMatcher._is_regex_pattern` (line 157-159):
`pattern.startswith('^')`. -/
def is_regex_pattern (p : String) : Bool := listStartsWith ['^'] p.data

/-- The per-line loop shared by the three branches of `_match_pattern`:
keep each stripped line that is non-empty and satisfies the branch's
condition. -/
def matchLines (pred : List Char → Bool) : List (List Char) → List (List Char)
  | [] => []
  | l :: rest =>
    let s := pyStripC l
    if !s.isEmpty && pred s then s :: matchLines pred rest
    else matchLines pred rest

/-- `LogPatternMatcher._match_pattern` (lines 161-201). -/
def match_pattern_c (pattern : List Char) (logText : List Char) : List (List Char) :=
  if logText.isEmpty then []
  else
    let lines := splitLinesC logText
    if listStartsWith ['^'] pattern then
      match reCompile pattern with
      | some r => matchLines (fun s => reSearch r s) lines
      | none => matchLines (fun s => strContainsC (pattern.drop 1) s) lines
    else
      matchLines (fun s => strContainsC pattern s) lines

def match_pattern (pattern logText : String) : List String :=
  (match_pattern_c pattern.data logText.data).map String.mk

/- ### `LogPatternMatcher._filter_job_setup_content` (lines 203-246) -/

/-- Line 223: `('Job file:' in line and '/tests/' in line) or
'Job Setup' in line`. -/
def isBannerLine (l : List Char) : Bool :=
  (strContainsC "Job file:".data l && strContainsC "/tests/".data l) ||
    strContainsC "Job Setup".data l

/-- The line loop of `_filter_job_setup_content`, with the `skip_line`
flag threaded through. -/
def filterAux : Bool → List (List Char) → List (List Char)
  | _, [] => []
  | skip, l :: rest =>
    let s := pyStripC l
    if s.isEmpty || listStartsWith ['='] s || listStartsWith ['-'] s then
      l :: filterAux skip rest
    else if isBannerLine l then
      filterAux true rest
    else if skip then
      if (listStartsWith ['-'] s && strContainsC [':'] s) ||
          (listStartsWith [' '] l && strContainsC [':'] s) ||
          listStartsWith ['#'] s then
        filterAux true rest
      else if listStartsWith "-------".data s then
        filterAux false rest
      else
        l :: filterAux false rest
    else
      l :: filterAux false rest

def filter_job_setup_content (output : String) : String :=
  String.mk (joinLinesC (filterAux false (splitLinesC output.data)))

/- ### `LogPatternMatcher.match_patterns` (lines 248-294) -/

/-- The per-pattern loop of `match_patterns`, producing the matched list,
the unmatched list and the `match_details` dict. -/
def matchLoop (combined : String) :
    List String → (List String × List String × List (String × List String))
  | [] => ([], [], [])
  | p :: rest =>
    let ls := match_pattern p combined
    let (ms, us, ds) := matchLoop combined rest
    if !ls.isEmpty then (p :: ms, us, (p, ls) :: ds)
    else (ms, p :: us, (p, []) :: ds)

/-- Lines 269-273: the two streams are setup-filtered and combined as
`f"{filtered_stdout}\n{filtered_stderr}"`. -/
def combined_output (stdout stderr : String) : String :=
  filter_job_setup_content stdout ++ "\n" ++ filter_job_setup_content stderr

/-- `match_patterns`: early return on an empty pattern list; otherwise each
pattern is matched against the combined filtered text. -/
def match_patterns (patterns : List String) (stdout stderr : String) : LogMatchResult :=
  if patterns.isEmpty then ⟨[], [], [], []⟩
  else
    let (ms, us, ds) := matchLoop (combined_output stdout stderr) patterns
    ⟨patterns, ms, us, ds⟩

/- ### `TestResult` (lines 297-336) -/

inductive TestStatus where
  | PASS
  | FAIL
  | TIMEOUT
  | ERROR
deriving Repr, DecidableEq

/-- `runtime` is a wall-clock float in the source; its value is irrelevant
to every claim, so it is carried as an integer field. -/
structure TestResult where
  job_file : String
  status : TestStatus
  expected_pass : Bool
  runtime : Int
  timeout_limit : Int
  modules : List ModuleInfo := []
  stdout : String := ""
  stderr : String := ""
  error_msg : String := ""
  log_match_result : LogMatchResult := ⟨[], [], [], []⟩
deriving Repr

/-- `TestResult.success` (lines 321-336).  `__post_init__` guarantees
`log_match_result` is never `None`, and a dataclass instance is always
truthy, so the Python guard `if self.log_match_result and ...` reduces to
the `has_patterns` test. -/
def TestResult.success (r : TestResult) : Bool :=
  let execution_success :=
    if r.expected_pass then decide (r.status = .PASS)
    else decide (r.status = .FAIL)
  let log_match_success :=
    if r.log_match_result.has_patterns then r.log_match_result.all_matched
    else true
  execution_success && log_match_success

/- ### The error branches of `SingleTestRunner.run_test`
(lines 529-547, 549-567 and 621-641) -/

/-- The `LogMatchResult` built in each error branch:
`patterns=config.log_patterns.copy() if config.log_patterns else []`
(the identity on the pattern list), no matched patterns, every configured
pattern unmatched, and `match_details={}` — the empty dict. -/
def error_case_log_match_result (log_patterns : List String) : LogMatchResult :=
  { patterns := log_patterns
    matched_patterns := []
    unmatched_patterns := log_patterns
    match_details := [] }

/-- The `TestResult` returned by the `except Exception` branch of
`run_test` (lines 621-641), and likewise by the two missing-script
branches: status `ERROR` with the error-case log match result. -/
def run_test_exception_result (job_file : String) (pass_expected : Bool)
    (timeout runtime : Int) (modules : List ModuleInfo) (error_msg : String)
    (log_patterns : List String) : TestResult :=
  { job_file := job_file
    status := .ERROR
    expected_pass := pass_expected
    runtime := runtime
    timeout_limit := timeout
    modules := modules
    error_msg := error_msg
    log_match_result := error_case_log_match_result log_patterns }

/- ### Spec-side restatements used by the claims -/

/-- Spec-side: `execution_success = (status == PASS)` if `expected_pass`
else `(status == FAIL)`. -/
def execution_success (r : TestResult) : Bool :=
  if r.expected_pass then decide (r.status = .PASS) else decide (r.status = .FAIL)

/-- Spec-side: log matching succeeds when there are no patterns, and equals
`all_matched` otherwise. -/
def log_match_success (r : TestResult) : Bool :=
  if r.log_match_result.has_patterns then r.log_match_result.all_matched else true

/-- Whether a parsed JSON value is a string. -/
def isStringVal : JVal → Bool
  | .jstr _ => true
  | _ => false

/- ### C6: spec-side field rules for a JSON-object directive -/

/-- Spec-side `pass` rule: absent defaults to true; a string value is
lower-cased and compared against `"yes"`/`"true"`; any other value
coerces truthily. -/
def spec_pass_rule (fields : List (String × JVal)) : Bool :=
  match jdictGet fields "pass" with
  | none => true
  | some (.jstr s) => pyLowerC s.data = "yes".data || pyLowerC s.data = "true".data
  | some v => pyTruthy v

/-- Spec-side `timeout` rule: the integer cast of the `timeout` field,
defaulting to 300. -/
def spec_timeout_rule (fields : List (String × JVal)) : Except String Int :=
  pyInt ((jdictGet fields "timeout").getD (.jnum 300 0))

/-- Spec-side `log` rule: absent gives the empty list; a sequence is
stringified elementwise; a string is parsed as JSON and a parsed array is
kept as-is, any other parse outcome giving the one-element pattern list;
other value types leave the list empty. -/
def spec_log_rule (fields : List (String × JVal)) : List JVal :=
  match jdictGet fields "log" with
  | none => []
  | some (.jarr xs) => xs.map (fun p => .jstr (pyStrV p))
  | some (.jstr s) =>
    match jsonLoads s with
    | some (.jarr ys) => ys
    | _ => [.jstr s]
  | some _ => []

/-- Spec-side: the trimmed lines of a text. -/
def strippedLines (t : String) : List String :=
  (splitLinesC t.data).map (fun l => String.mk (pyStripC l))


/- ### Claim theorems -/

/-- C9: for a `LogMatchResult` with an empty `patterns` sequence,
`has_patterns` and `all_matched` are both false (the vacuous case never
counts as fully matched), and `all_matched` holds exactly when `patterns`
is non-empty and `unmatched_patterns` is empty. -/
theorem C9_all_matched_never_vacuous (r : LogMatchResult) :
    (r.patterns = [] → r.has_patterns = false ∧ r.all_matched = false) ∧
    (r.all_matched = true ↔ r.patterns ≠ [] ∧ r.unmatched_patterns = []) := by
  constructor
  · intro h
    constructor
    · simp [LogMatchResult.has_patterns, h]
    · simp [LogMatchResult.all_matched, h]
  · unfold LogMatchResult.all_matched
    rw [Bool.and_eq_true, decide_eq_true_iff, decide_eq_true_iff,
      List.length_eq_zero, List.length_pos]
    exact and_comm

/-- C9 witness: the all-empty `LogMatchResult` is not `all_matched`. -/
theorem C9_witness :
    (⟨[], [], [], []⟩ : LogMatchResult).all_matched = false :=
  ((C9_all_matched_never_vacuous ⟨[], [], [], []⟩).1 rfl).2

/-- C2: `success` is the conjunction of the execution half and the log
half, and a `TIMEOUT` or `ERROR` status forces `success = false` for
either value of `expected_pass`. -/
theorem C2_success_decomposition (r : TestResult) :
    (r.success = (execution_success r && log_match_success r)) ∧
    ((r.status = .TIMEOUT ∨ r.status = .ERROR) → r.success = false) := by
  constructor
  · rfl
  · intro h
    have hx : execution_success r = false := by
      unfold execution_success
      rcases h with h | h <;> rw [h] <;> cases r.expected_pass <;> simp
    have hs : r.success = (execution_success r && log_match_success r) := rfl
    rw [hs, hx, Bool.false_and]

/-- C2 witness: an `ERROR` result (here from the exception branch of
`run_test`) is not a success. -/
theorem C2_witness :
    (run_test_exception_result "a.job" true 300 0 [] "boom" []).success = false :=
  (C2_success_decomposition _).2 (Or.inr rfl)

/-- C5 counterexample: in the error-branch `LogMatchResult`, the
configured pattern is unmatched but `match_details` has no entry for it at
all — the claim's "maps each pattern to an empty sequence" fails. -/
theorem C5_counterexample :
    (error_case_log_match_result ["p"]).unmatched_patterns = ["p"] ∧
    detailsGet (error_case_log_match_result ["p"]).match_details "p" = none :=
  ⟨rfl, rfl⟩

/-- C5 amended: the exception branch of `run_test` returns status `ERROR`
with every configured pattern unmatched, no matched patterns, and an empty
`match_details` dict (no entry for any pattern). -/
theorem C5_amended (jf : String) (pe : Bool) (t rt : Int)
    (ms : List ModuleInfo) (em : String) (ps : List String) :
    (run_test_exception_result jf pe t rt ms em ps).status = .ERROR ∧
    (run_test_exception_result jf pe t rt ms em ps).log_match_result.unmatched_patterns = ps ∧
    (run_test_exception_result jf pe t rt ms em ps).log_match_result.matched_patterns = [] ∧
    (run_test_exception_result jf pe t rt ms em ps).log_match_result.match_details = [] :=
  ⟨rfl, rfl, rfl, rfl⟩

/-- C7: the JS-object-style directive `{pass: no, timeout: 5}` normalizes
to `{"pass": "no", "timeout": 5}` and parses to
`pass_expected=False, timeout=5`. -/
theorem C7_js_style_directive :
    normalize_config_string "\x7bpass: no, timeout: 5\x7d" = "\x7b\"pass\": \"no\", \"timeout\": 5\x7d" ∧
    JobConfig.from_string "\x7bpass: no, timeout: 5\x7d" =
      .ok { pass_expected := false, timeout := 5, log_patterns := [], modules := [] } :=
  ⟨rfl, rfl⟩

/-- C8: the directive `{"log": "[1, 2]"}` is parsed without fallback, yet
its `log_patterns` contains the non-string elements `1` and `2` — the
string-valued `log` branch keeps whatever `json.loads` produced, never
checking for strings, contradicting the `List[str]` annotation of the
dataclass field. -/
theorem C8_nonstring_log_patterns :
    JobConfig.from_string "\x7b\"log\": \"[1, 2]\"\x7d" =
      .ok { pass_expected := true, timeout := 300,
            log_patterns := [.jnum 1 0, .jnum 2 0], modules := [] } ∧
    isStringVal (.jnum 1 0) = false :=
  ⟨rfl, rfl⟩

/-- A non-object top-level JSON value always makes the post-parse field
handling of `from_string` raise: membership raises `TypeError` on
scalars, and subscripting or `.get` raises on strings and arrays. -/
theorem configFromDict_nonobject (v : JVal) (h : ∀ fs, v ≠ .jobj fs) :
    ∃ e, configFromDict v = .error e := by
  cases v with
  | jobj fs => exact absurd rfl (h fs)
  | jnull => exact ⟨_, rfl⟩
  | jbool b => exact ⟨_, rfl⟩
  | jnum n d => exact ⟨_, rfl⟩
  | jstr s =>
    by_cases hc : strContainsC "log".data s.data
    · exact ⟨"TypeError: indices must be integers", by
        simp [configFromDict, pyInOp, hc, pySubscript]⟩
    · exact ⟨"AttributeError: object has no attribute get", by
        simp [configFromDict, pyInOp, hc, pySubscript, pyDictGet]⟩
  | jarr xs =>
    by_cases hc : xs.any (fun x => match x with | .jstr s => s = "log" | _ => false)
    · exact ⟨"TypeError: indices must be integers", by
        simp [configFromDict, pyInOp, hc, pySubscript]⟩
    · exact ⟨"AttributeError: object has no attribute get", by
        simp [configFromDict, pyInOp, hc, pySubscript, pyDictGet]⟩

/-- C1 counterexample: the directive `"3"` is valid JSON (so the fallback
never triggers), and `from_string` raises an uncaught `TypeError` at
`'log' in config_dict` instead of returning a config. -/
theorem C1_counterexample :
    jsonLoads "3" = some (.jnum 3 0) ∧
    JobConfig.from_string "3" = .error "TypeError: argument is not iterable" :=
  ⟨rfl, rfl⟩

/-- C1 amended: for every directive string unparsable as JSON even after
normalization, `from_string` returns the default config without raising;
but a directive string parsing to a non-object value makes it raise. -/
theorem C1_amended (s : String) :
    (jsonLoads s = none → jsonLoads (normalize_config_string s) = none →
      JobConfig.from_string s = .ok {}) ∧
    (∀ v, jsonLoads s = some v → (∀ fs, v ≠ JVal.jobj fs) →
      ∃ e, JobConfig.from_string s = .error e) := by
  constructor
  · intro h1 h2
    unfold JobConfig.from_string
    rw [h1, h2]
  · intro v hv hno
    obtain ⟨e, he⟩ := configFromDict_nonobject v hno
    refine ⟨e, ?_⟩
    unfold JobConfig.from_string
    rw [hv]
    exact he

/-- C1 witness: the unparsable directive `"@@@"` falls back to the default
config, and the valid-JSON directive `"3"` raises. -/
theorem C1_witness :
    JobConfig.from_string "@@@" = .ok {} ∧
    (∃ e, JobConfig.from_string "3" = .error e) :=
  ⟨(C1_amended "@@@").1 rfl rfl,
   (C1_amended "3").2 (.jnum 3 0) rfl (fun _ h => JVal.noConfusion h)⟩

theorem jdictHas_eq_isSome (fields : List (String × JVal)) (k : String) :
    jdictHas fields k = (jdictGet fields k).isSome := by
  unfold jdictHas jdictGet
  rcases h : List.find? (fun kv => kv.fst = k) fields.reverse with _ | kv
  · simp only [h, Option.map_none', Option.isSome_none]
    rw [List.any_eq_false]
    intro x hx
    exact (List.find?_eq_none.mp h) x (List.mem_reverse.mpr hx)
  · simp only [h, Option.map_some', Option.isSome_some]
    rw [List.any_eq_true]
    have hmem : kv ∈ fields.reverse := List.mem_of_find?_eq_some h
    have hp : kv.fst = k := by simpa using List.find?_some h
    exact ⟨kv, List.mem_reverse.mp hmem, by simpa using hp⟩

/-- On a JSON-object directive whose `timeout` field is int-convertible,
the post-parse handling follows the three spec-side field rules. -/
theorem configFromDict_obj (fields : List (String × JVal)) (t : Int)
    (ht : spec_timeout_rule fields = .ok t) :
    configFromDict (.jobj fields) = .ok
      { pass_expected := spec_pass_rule fields, timeout := t,
        log_patterns := spec_log_rule fields } := by
  unfold spec_timeout_rule at ht
  have hhas := jdictHas_eq_isSome fields "log"
  cases hlog : jdictGet fields "log" with
  | none =>
    rw [hlog] at hhas
    have hlogPat : ([] : List JVal) = spec_log_rule fields := by
      unfold spec_log_rule
      rw [hlog]
    cases hpass : jdictGet fields "pass" with
    | none =>
      simp only [configFromDict, pyInOp, pyDictGet, hhas, hpass,
        Option.isSome_none, Bool.false_eq_true, reduceIte, Option.getD_none]
      rw [ht, hlogPat]
      unfold spec_pass_rule
      rw [hpass]
      rfl
    | some pv =>
      simp only [configFromDict, pyInOp, pyDictGet, hhas, hpass,
        Option.isSome_none, Bool.false_eq_true, reduceIte, Option.getD_some]
      rw [ht, hlogPat]
      unfold spec_pass_rule
      rw [hpass]
      cases pv <;> rfl
  | some lv =>
    rw [hlog] at hhas
    have hsub : pySubscript (.jobj fields) "log" = .ok lv := by
      simp only [pySubscript, hlog]
    have hlogPat : logPatternsOf lv = spec_log_rule fields := by
      unfold spec_log_rule
      rw [hlog]
      cases lv with
      | jstr s =>
        cases hj : jsonLoads s with
        | none => simp [logPatternsOf, hj]
        | some v => cases v <;> simp [logPatternsOf, hj]
      | jnull => rfl
      | jbool b => rfl
      | jnum n d => rfl
      | jarr xs => rfl
      | jobj fs => rfl
    cases hpass : jdictGet fields "pass" with
    | none =>
      simp only [configFromDict, pyInOp, pyDictGet, hsub, hhas, hpass,
        Option.isSome_some, reduceIte, Option.getD_none]
      rw [ht, hlogPat]
      unfold spec_pass_rule
      rw [hpass]
      rfl
    | some pv =>
      simp only [configFromDict, pyInOp, pyDictGet, hsub, hhas, hpass,
        Option.isSome_some, reduceIte, Option.getD_some]
      rw [ht, hlogPat]
      unfold spec_pass_rule
      rw [hpass]
      cases pv <;> rfl

/-- C6 counterexample: `{"timeout": "abc"}` is a valid strict JSON object,
yet `from_string` raises an uncaught `ValueError` at `int("abc")` instead
of yielding a config. -/
theorem C6_counterexample :
    jsonLoads "\x7b\"timeout\": \"abc\"\x7d" = some (.jobj [("timeout", .jstr "abc")]) ∧
    JobConfig.from_string "\x7b\"timeout\": \"abc\"\x7d" =
      .error "ValueError: invalid literal for int() with base 10" :=
  ⟨rfl, rfl⟩

/-- C6 amended: for every directive string parsing directly as a strict
JSON object whose `timeout` field (when present) is int-convertible,
`from_string` yields exactly the config given by the spec-side `pass`,
`timeout` and `log` field rules. -/
theorem C6_object_directive_fields (s : String) (fields : List (String × JVal)) (t : Int)
    (hparse : jsonLoads s = some (.jobj fields))
    (ht : spec_timeout_rule fields = .ok t) :
    JobConfig.from_string s = .ok
      { pass_expected := spec_pass_rule fields, timeout := t,
        log_patterns := spec_log_rule fields } := by
  unfold JobConfig.from_string
  rw [hparse]
  exact configFromDict_obj fields t ht

/-- C6 witness: the example directive of the claim. -/
theorem C6_witness :
    JobConfig.from_string "\x7b\"pass\":\"no\",\"timeout\":10,\"log\":[\"foo\"]\x7d" =
      .ok { pass_expected := false, timeout := 10,
            log_patterns := [.jstr "foo"], modules := [] } := by
  have h := C6_object_directive_fields "\x7b\"pass\":\"no\",\"timeout\":10,\"log\":[\"foo\"]\x7d"
    [("pass", .jstr "no"), ("timeout", .jnum 10 0), ("log", .jarr [.jstr "foo"])]
    10 rfl rfl
  exact h

/-- The per-pattern loop produces the filter of the matching patterns, the
filter of the non-matching ones, and the details entry for every
pattern. -/
theorem matchLoop_eq (c : String) (ps : List String) :
    matchLoop c ps =
      (ps.filter (fun p => !(match_pattern p c).isEmpty),
       ps.filter (fun p => (match_pattern p c).isEmpty),
       ps.map (fun p => (p, match_pattern p c))) := by
  induction ps with
  | nil => rfl
  | cons p rest ih =>
    simp only [matchLoop, ih, List.filter_cons, List.map_cons]
    by_cases h : (match_pattern p c).isEmpty
    · simp [h, List.isEmpty_iff.mp h]
    · simp [h]

/-- Looking up a key of the input list in the tabulated details map. -/
theorem detailsGet_map (f : String → List String) (ps : List String) (p : String)
    (hp : p ∈ ps) :
    detailsGet (ps.map (fun q => (q, f q))) p = some (f p) := by
  induction ps with
  | nil => cases hp
  | cons q rest ih =>
    rcases List.mem_cons.mp hp with h | h
    · subst h
      simp [detailsGet, List.find?]
    · by_cases hq : q = p
      · subst hq
        simp [detailsGet, List.find?]
      · have htail := ih h
        simp only [detailsGet, List.map_cons, List.find?] at htail ⊢
        simp only [hq, decide_False]
        exact htail

/-- C10: `match_patterns` copies the input patterns, splits them into the
order-preserving complementary subsequences of matching and non-matching
patterns (each pattern occurrence landing in exactly one, so interleaving
by the match predicate reconstructs the input), and tabulates a
`match_details` entry for every input pattern, non-empty exactly for the
matched ones. -/
theorem C10_match_patterns_partition (patterns : List String) (stdout stderr : String) :
    (match_patterns patterns stdout stderr).patterns = patterns ∧
    (match_patterns patterns stdout stderr).matched_patterns =
      patterns.filter (fun p => !(match_pattern p (combined_output stdout stderr)).isEmpty) ∧
    (match_patterns patterns stdout stderr).unmatched_patterns =
      patterns.filter (fun p => (match_pattern p (combined_output stdout stderr)).isEmpty) ∧
    List.Sublist (match_patterns patterns stdout stderr).matched_patterns patterns ∧
    List.Sublist (match_patterns patterns stdout stderr).unmatched_patterns patterns ∧
    (∀ p ∈ patterns,
      detailsGet (match_patterns patterns stdout stderr).match_details p =
        some (match_pattern p (combined_output stdout stderr)) ∧
      ((match_pattern p (combined_output stdout stderr)).isEmpty = false ↔
        p ∈ (match_patterns patterns stdout stderr).matched_patterns)) := by
  cases patterns with
  | nil =>
    refine ⟨rfl, rfl, rfl, List.nil_sublist _, List.nil_sublist _, ?_⟩
    intro p hp
    cases hp
  | cons q qs =>
    have hm : match_patterns (q :: qs) stdout stderr =
        ⟨q :: qs,
         (q :: qs).filter
           (fun p => !(match_pattern p (combined_output stdout stderr)).isEmpty),
         (q :: qs).filter
           (fun p => (match_pattern p (combined_output stdout stderr)).isEmpty),
         (q :: qs).map
           (fun p => (p, match_pattern p (combined_output stdout stderr)))⟩ := by
      simp only [match_patterns, List.isEmpty_cons, Bool.false_eq_true, reduceIte,
        matchLoop_eq]
    rw [hm]
    refine ⟨rfl, rfl, rfl, List.filter_sublist _, List.filter_sublist _, ?_⟩
    intro p hp
    refine ⟨detailsGet_map _ _ _ hp, ?_, ?_⟩
    · intro hem
      rw [List.mem_filter]
      exact ⟨hp, by simp [hem]⟩
    · intro hmem
      have hx := (List.mem_filter.mp hmem).2
      simpa using hx

/-- C10 witness: structure of a two-pattern run on concrete output. -/
theorem C10_witness :
    detailsGet ((match_patterns ["connected"] "now connected" "").match_details)
      "connected" = some ["now connected"] := by
  have h := ((C10_match_patterns_partition ["connected"] "now connected" "").2.2.2.2.2
    "connected" (by simp)).1
  rw [h]
  rfl

/- ### C3: the two pattern kinds of `_match_pattern` -/

/-- The line loop keeps exactly the non-empty stripped lines satisfying
the branch condition. -/
theorem matchLines_map_filter (pred : List Char → Bool) (ls : List (List Char)) :
    (matchLines pred ls).map String.mk =
      (ls.map (fun l => String.mk (pyStripC l))).filter
        (fun t => !t.data.isEmpty && pred t.data) := by
  induction ls with
  | nil => rfl
  | cons l rest ih =>
    by_cases h : (!(pyStripC l).isEmpty && pred (pyStripC l)) = true
    · simp [matchLines, List.filter_cons, h, ih]
    · simp [matchLines, List.filter_cons, h, ih]

/-- An anchored literal pattern filters lines by a leading-segment test. -/
theorem match_pattern_c_anchored (lit : List Char)
    (hmeta : lit.all (fun c => !isRegexMeta c) = true) (t : List Char) :
    match_pattern_c ('^' :: lit) t =
      matchLines (fun s => listStartsWith lit s) (splitLinesC t) := by
  unfold match_pattern_c
  by_cases h : t.isEmpty
  · rw [List.isEmpty_iff.mp h]
    rfl
  · have h2 : t.isEmpty = false := by simpa using h
    simp only [h2, Bool.false_eq_true, reduceIte]
    simp only [listStartsWith, reCompile, hmeta, reduceIte]
    simp [reSearch]

/-- A pattern without the `^` marker filters lines by a substring test. -/
theorem match_pattern_c_plain (pat : List Char)
    (hp : listStartsWith ['^'] pat = false) (t : List Char) :
    match_pattern_c pat t =
      matchLines (fun s => strContainsC pat s) (splitLinesC t) := by
  unfold match_pattern_c
  by_cases h : t.isEmpty
  · rw [List.isEmpty_iff.mp h]
    rfl
  · have h2 : t.isEmpty = false := by simpa using h
    simp only [h2, Bool.false_eq_true, reduceIte, hp]

/-- C3 counterexample: the trimmed line `"xx ERROR"` contains `"ERROR"`,
yet the pattern `"^ERROR"` does not match it — with no `re.MULTILINE`,
`^` anchors `re.search` at the start of the stripped line, so the claim's
"matches every line containing ERROR anywhere" fails. -/
theorem C3_counterexample :
    strContainsC "ERROR".data (pyStripC "xx ERROR".data) = true ∧
    match_pattern "^ERROR" "xx ERROR" = [] :=
  ⟨rfl, rfl⟩

/-- C3 amended: `"^ERROR"` is compiled as a regex and matches exactly the
non-empty trimmed lines that START with `"ERROR"`; a pattern without the
leading `^`, such as `"connected"`, is a case-sensitive substring test on
each trimmed line. -/
theorem C3_pattern_kinds (logText : String) :
    match_pattern "^ERROR" logText =
      (strippedLines logText).filter
        (fun l => !l.data.isEmpty && listStartsWith "ERROR".data l.data) ∧
    match_pattern "connected" logText =
      (strippedLines logText).filter
        (fun l => !l.data.isEmpty && strContainsC "connected".data l.data) := by
  constructor
  · unfold match_pattern strippedLines
    rw [show ("^ERROR".data) = '^' :: "ERROR".data from rfl,
      match_pattern_c_anchored "ERROR".data rfl, matchLines_map_filter]
  · unfold match_pattern strippedLines
    rw [match_pattern_c_plain "connected".data rfl, matchLines_map_filter]

/-- C3 witness: concrete lines for both pattern kinds. -/
theorem C3_witness :
    match_pattern "^ERROR" "ERROR: x\nsee ERROR here" = ["ERROR: x"] ∧
    match_pattern "connected" "now connected ok\nnot here" = ["now connected ok"] := by
  constructor
  · rw [(C3_pattern_kinds "ERROR: x\nsee ERROR here").1]
    rfl
  · rw [(C3_pattern_kinds "now connected ok\nnot here").2]
    rfl

/- ### C4: the setup-content filter -/

theorem splitLinesC_ne_nil (s : List Char) : splitLinesC s ≠ [] := by
  cases s with
  | nil => simp [splitLinesC]
  | cons c rest =>
    simp only [splitLinesC]
    split
    · simp
    · split <;> simp

theorem joinLinesC_cons (l : List Char) (ls : List (List Char)) (h : ls ≠ []) :
    joinLinesC (l :: ls) = l ++ '\n' :: joinLinesC ls := by
  cases ls with
  | nil => exact absurd rfl h
  | cons x xs => rfl

/-- `'\n'.join` undoes `split('\n')`. -/
theorem joinLinesC_splitLinesC (s : List Char) : joinLinesC (splitLinesC s) = s := by
  induction s with
  | nil => rfl
  | cons c rest ih =>
    by_cases h : c = '\n'
    · subst h
      rw [show splitLinesC ('\n' :: rest) = [] :: splitLinesC rest from by
          simp [splitLinesC],
        joinLinesC_cons _ _ (splitLinesC_ne_nil rest)]
      simp [ih]
    · rcases heq : splitLinesC rest with _ | ⟨hd, tl⟩
      · exact absurd heq (splitLinesC_ne_nil rest)
      · rw [show splitLinesC (c :: rest) = (c :: hd) :: tl from by
            simp [splitLinesC, h, heq]]
        rw [heq] at ih
        cases tl with
        | nil => simpa [joinLinesC] using congrArg (fun t => c :: t) ih
        | cons y ys =>
          rw [joinLinesC_cons _ _ (by simp)] at ih ⊢
          simpa using congrArg (fun t => c :: t) ih

/-- When no line is a job-setup banner, the filter loop keeps every line:
blank, `=`- and `-`-prefixed lines through the first branch, everything
else through the non-skipping final branch. -/
theorem filterAux_no_banner (ls : List (List Char))
    (h : ∀ l ∈ ls, isBannerLine l = false) :
    filterAux false ls = ls := by
  induction ls with
  | nil => rfl
  | cons l rest ih =>
    have hl : isBannerLine l = false := h l (List.mem_cons_self l rest)
    have hrest := ih (fun x hx => h x (List.mem_cons_of_mem l hx))
    by_cases hc : ((pyStripC l).isEmpty || listStartsWith ['='] (pyStripC l) ||
        listStartsWith ['-'] (pyStripC l)) = true
    · simp [filterAux, hc, hrest]
    · simp [filterAux, hc, hl, hrest]

/-- C4 counterexample: after a `"Job Setup"` banner the code KEEPS the
`-`-prefixed key:value line `"- a: b"` (the claim says it is removed), and
it KEEPS a `-------` divider while STILL skipping the indented key:value
line after it (the claim says the divider ends the block). -/
theorem C4_counterexample :
    filter_job_setup_content "Job Setup\n- a: b" = "- a: b" ∧
    filter_job_setup_content "Job Setup\n-------\n  a: b" = "-------" :=
  ⟨rfl, rfl⟩

/-- C4 amended: with no banner line present every line passes through
unchanged; after a banner, indented key:value lines and `#`-comment lines
are removed, while blank lines and lines whose trimmed text starts with
`=` or `-` (dividers included) pass through without ending the skipping
state; the first other line ends the block and is preserved. -/
theorem C4_filter_behavior :
    (∀ output : String,
      (∀ l ∈ splitLinesC output.data, isBannerLine l = false) →
      filter_job_setup_content output = output) ∧
    filter_job_setup_content "Job Setup\n  a: b\n# x\n-------\n  c: d\nEnd\n  e: f" =
      "-------\nEnd\n  e: f" := by
  constructor
  · intro output h
    unfold filter_job_setup_content
    rw [filterAux_no_banner _ h, joinLinesC_splitLinesC]
  · rfl

/-- C4 witness: ordinary program output is untouched. -/
theorem C4_witness :
    filter_job_setup_content "hello\nworld" = "hello\nworld" :=
  C4_filter_behavior.1 "hello\nworld" (by decide)
